import Mathlib

/-!
Verification of the `water` upgrade tool (github.com/bouquet2/water).

Shallow embedding of the version comparator (`version/compare.go`,
`k8s/version.go`), the release gate (`version/releases.go`) and the upgrade
orchestration engine (`upgrade` package) in Lean 4, together with theorems
settling the behavioural properties stated in the design document.

Strings are modelled as `List Char`.  Machine integers (`int`, 64-bit) are
modelled as `Int` with the explicit `int64` range check performed by Go's
`strconv.ParseInt` / `fmt.Sscanf`.  Fallible Go functions returning
`(T, error)` are modelled as `Option` / `Except` values; the textual content
of wrapped error messages is not modelled, only the identity of the error.
-/

set_option maxHeartbeats 1000000

/-- Helper to write `List Char` literals readably. -/
def str (s : String) : List Char := s.toList

/-- `strings.Split(s, sep)` for a one-character separator: splits `s` at every
occurrence of `sep`; the separator is not part of any piece.  `Split("",".")`
is `[""]`, i.e. the result is never empty. -/
def splitChar (sep : Char) : List Char → List (List Char)
  | [] => [[]]
  | c :: rest =>
    if c = sep then [] :: splitChar sep rest
    else
      match splitChar sep rest with
      | [] => [[c]]
      | p :: ps => (c :: p) :: ps

/-- Numeric value of a list of decimal digit characters (most significant
first), as read left-to-right by `strconv.ParseUint` / the `fmt` scanner. -/
def digitsToNat (l : List Char) : Nat :=
  l.foldl (fun a c => 10 * a + (c.toNat - 48)) 0

/-- The `int64` range check performed by `strconv.ParseInt` (and hence by
`strconv.Atoi` and `fmt.Sscanf`'s `%d` verb) on a 64-bit platform. -/
def int64Ok (n : Int) : Prop := -(2 ^ 63) ≤ n ∧ n ≤ 2 ^ 63 - 1

instance (n : Int) : Decidable (int64Ok n) := by
  unfold int64Ok; infer_instance

/-- `strconv.Atoi`: an optional single `+`/`-` sign followed by at least one
ASCII decimal digit and nothing else; the value must fit in `int64`. -/
def atoi (s : List Char) : Option Int :=
  match s with
  | [] => none
  | c :: rest =>
    let neg : Bool := c = '-'
    let digits : List Char := if c = '+' ∨ c = '-' then rest else s
    if digits = [] then none
    else if digits.all Char.isDigit then
      let n : Int := (digitsToNat digits : Nat)
      let v : Int := if neg then -n else n
      if int64Ok v then some v else none
    else none

/-- Parsed `[3]int` of major/minor/patch, shared by both parsers. -/
structure Parts where
  major : Int
  minor : Int
  patch : Int
deriving DecidableEq, Repr

/-- `strings.TrimPrefix(s, "v")`: drop one leading `v` if present. -/
def trimV (s : List Char) : List Char :=
  match s with
  | 'v' :: rest => rest
  | _ => s

namespace Version

/-- `version.ComparisonResult` (`Equal = 0`, `Newer = 1`, `Older = -1`). -/
inductive ComparisonResult where
  | Equal
  | Newer
  | Older
deriving DecidableEq, Repr

/-- The body of the `strings.Contains(part, "-")` / `strings.Split(part, "-")[0]`
step of `version.parseVersion`: the piece of `part` before its first `-`. -/
def preReleaseTrim (part : List Char) : List Char :=
  if part.contains '-' then (splitChar '-' part).headD [] else part

/-- `version.parseVersion`: split on `.`, require exactly 3 components, strip
a `-suffix` from each component, `strconv.Atoi` each component. -/
def parseVersion (version : List Char) : Option Parts :=
  match splitChar '.' version with
  | [p0, p1, p2] =>
    match atoi (preReleaseTrim p0), atoi (preReleaseTrim p1), atoi (preReleaseTrim p2) with
    | some a, some b, some c => some ⟨a, b, c⟩
    | _, _, _ => none
  | _ => none

/-- The comparison loop of `version.Compare`: first differing component of
(major, minor, patch) decides. -/
def compareParts (parts1 parts2 : Parts) : ComparisonResult :=
  if parts1.major > parts2.major then .Newer
  else if parts1.major < parts2.major then .Older
  else if parts1.minor > parts2.minor then .Newer
  else if parts1.minor < parts2.minor then .Older
  else if parts1.patch > parts2.patch then .Newer
  else if parts1.patch < parts2.patch then .Older
  else .Equal

/-- `version.Compare`: trim `v` prefixes, parse both, compare component-wise.
`none` models the `(Equal, err)` return on a parse failure. -/
def Compare (version1 version2 : List Char) : Option ComparisonResult :=
  match parseVersion (trimV version1), parseVersion (trimV version2) with
  | some parts1, some parts2 => some (compareParts parts1 parts2)
  | _, _ => none

/-- `version.NeedsUpgrade`: true iff `Compare(current, target) == Older`;
propagates comparison failure. -/
def NeedsUpgrade (currentVersion targetVersion : List Char) : Option Bool :=
  match Compare currentVersion targetVersion with
  | some result => some (decide (result = ComparisonResult.Older))
  | none => none

/-- `version.ValidateVersion` as a predicate: non-empty and parseable after
trimming the `v` prefix (`true` = the Go function returns a nil error). -/
def ValidateVersion (version : List Char) : Bool :=
  if version = [] then false
  else (parseVersion (trimV version)).isSome

end Version

namespace K8s

/-- Go `fmt` scanner space characters other than `'\n'` (which, for `Sscanf`,
must match a newline in the format string and otherwise fails the scan). -/
def isScanSpace (c : Char) : Bool :=
  c = ' ' ∨ c = '\t' ∨ c = '\r' ∨ c = Char.ofNat 0x0b ∨ c = Char.ofNat 0x0c ∨
  c = Char.ofNat 0x85 ∨ c = Char.ofNat 0xa0

/-- Leading-space skipping performed by the `%d` verb; `Sscanf` fails on a
newline in the input that has no newline in the format. -/
def skipSpaces : List Char → Option (List Char)
  | [] => some []
  | c :: rest =>
    if c = '\n' then none
    else if isScanSpace c then skipSpaces rest
    else some (c :: rest)

/-- The `%d` verb: skip leading spaces, optional sign, a maximal non-empty run
of decimal digits, `int64` range check; returns the value and the rest. -/
def scanDec (s : List Char) : Option (Int × List Char) :=
  match skipSpaces s with
  | none => none
  | some t =>
    match t with
    | [] => none
    | c :: rest =>
      let neg : Bool := c = '-'
      let t1 : List Char := if c = '+' ∨ c = '-' then rest else t
      let ds : List Char := t1.takeWhile Char.isDigit
      let t2 : List Char := t1.dropWhile Char.isDigit
      if ds = [] then none
      else
        let n : Int := (digitsToNat ds : Nat)
        let v : Int := if neg then -n else n
        if int64Ok v then some (v, t2) else none

/-- A literal `.` in the `Sscanf` format: must match the next input character
exactly. -/
def expectDot : List Char → Option (List Char)
  | '.' :: rest => some rest
  | _ => none

/-- `fmt.Sscanf(s, "%d.%d.%d", ...)`: three `%d` verbs separated by literal
dots; trailing unconsumed input is allowed (Sscanf does not require the whole
input to be consumed). -/
def sscanf3 (s : List Char) : Option Parts :=
  match scanDec s with
  | none => none
  | some (a, s1) =>
    match expectDot s1 with
    | none => none
    | some s2 =>
      match scanDec s2 with
      | none => none
      | some (b, s3) =>
        match expectDot s3 with
        | none => none
        | some s4 =>
          match scanDec s4 with
          | none => none
          | some (c, _) => some ⟨a, b, c⟩

/-- `k8s.parseVersion`: discard everything from the first `-` on
(`strings.Split(version, "-")[0]`), then `Sscanf "%d.%d.%d"`. -/
def parseVersion (version : List Char) : Option Parts :=
  let mainVersion := (splitChar '-' version).headD []
  sscanf3 mainVersion

/-- The comparison chain of `k8s.CompareVersions`: -1 / 0 / 1. -/
def compareParts (v1Parts v2Parts : Parts) : Int :=
  if v1Parts.major < v2Parts.major then -1
  else if v1Parts.major > v2Parts.major then 1
  else if v1Parts.minor < v2Parts.minor then -1
  else if v1Parts.minor > v2Parts.minor then 1
  else if v1Parts.patch < v2Parts.patch then -1
  else if v1Parts.patch > v2Parts.patch then 1
  else 0

/-- `k8s.CompareVersions`: trim `v` prefixes, parse both with the Sscanf-based
parser, compare; `none` models the `(0, err)` return on a parse failure. -/
def CompareVersions (version1 version2 : List Char) : Option Int :=
  match parseVersion (trimV version1), parseVersion (trimV version2) with
  | some v1Parts, some v2Parts => some (compareParts v1Parts v2Parts)
  | _, _ => none

end K8s

example : Version.parseVersion (str "1.10.5") = some ⟨1, 10, 5⟩ := by decide
example : Version.parseVersion (str "1.2.3-alpha") = some ⟨1, 2, 3⟩ := by decide
example : Version.parseVersion (str "1.2.3-alpha.1") = none := by decide
example : K8s.parseVersion (str "1.2.3-alpha.1") = some ⟨1, 2, 3⟩ := by decide
example : K8s.parseVersion (str "1.2.3x") = some ⟨1, 2, 3⟩ := by decide
example : Version.Compare (str "v1.2.3") (str "v1.3.0") = some .Older := by decide
example : Version.NeedsUpgrade (str "v2.0.0") (str "v1.9.9") = some false := by decide
example : K8s.CompareVersions (str "v1.2.3") (str "v1.3.0") = some (-1) := by decide

namespace Upgrade

/-- The two upgrade layers; also the `upgradeType` discriminator handed to the
progress monitor (the Go strings `"talos"` / `"kubernetes"`). -/
inductive Layer where
  | talos
  | kubernetes
deriving DecidableEq, Repr

/-- Errors of the upgrade engine.  Go wraps errors in message context via
`fmt.Errorf("...: %w", err)`; only the identity of the innermost error is
modelled, not the wrapping text. -/
inductive UErr where
  | clusterUnavailable
  | invalidTargetFormat
  | releaseLookupFailed
  | notYetReleased
  | nodesNotReady (nodes : List String)
  | noControlPlane
  | nodeNotFound (name : String)
  | upgradeInitFailed (name : String)
  | nodeNotBack (name : String)
  | k8sNodeUpgradeFailed (name : String)
  | monitorTimeout (failedNodes : List String)
  | versionCheckFailed
deriving DecidableEq, Repr

/-- Observable calls to external collaborators, recorded as a trace. -/
inductive Event where
  | fetchClusterInfo
  | gateCheck (layer : Layer)
  | upgradeNode (endpoint : String)
  | waitReboot (endpoint : String)
  | upgradeK8s (endpoint : String)
deriving DecidableEq, Repr

/-- `true` exactly on the events that invoke the node or workload upgrader. -/
def Event.isUpgraderCall : Event → Bool
  | .upgradeNode _ => true
  | .waitReboot _ => true
  | .upgradeK8s _ => true
  | _ => false

/-- `talos.NodeInfo`. -/
structure NodeInfo where
  name : String
  talosVersion : List Char
  ready : Bool
  isControlPlane : Bool
  endpoint : String
deriving DecidableEq, Repr

/-- `talos.ClusterInfo`. -/
structure ClusterInfo where
  talosVersion : List Char
  k8sVersion : List Char
  nodes : List NodeInfo
deriving DecidableEq, Repr

/-- `config.TalosConfig`. -/
structure TalosConfig where
  imageID : List Char
  version : List Char
  upgradeOrder : String
deriving DecidableEq, Repr

/-- `config.K8sConfig`. -/
structure K8sConfig where
  version : List Char
  upgradeOrder : String
deriving DecidableEq, Repr

/-- `config.Config`. -/
structure Config where
  talos : TalosConfig
  k8s : K8sConfig
deriving DecidableEq, Repr

/-- The external collaborators of one orchestration run, as deterministic
oracles: the cluster snapshot returned by `talosClient.GetClusterInfo` (the
snapshot is static — the same value is returned on every fetch), the version
lists produced by `version.GetSupportedVersions` for each release family, the
per-endpoint outcomes of `talosClient.UpgradeNode`,
`talosClient.WaitForNodeReboot` and `k8s.UpgradeKubernetesOnNode`, and the
number of 30-second ticker firings that fit before the progress monitor's
10-minute deadline elapses. -/
structure Env where
  clusterInfo : Except UErr ClusterInfo
  talosReleases : Except UErr (List (List Char))
  k8sReleases : Except UErr (List (List Char))
  upgradeNode : String → List Char → Except UErr Unit
  waitForNodeReboot : String → Except UErr Unit
  upgradeK8sOnNode : String → Except UErr Unit
  monitorPolls : Nat

/-- `upgrade.UpgradeResult` (the wall-clock `UpgradeDuration` is not
modelled). -/
structure UpgradeResult where
  talosUpgraded : Bool
  k8sUpgraded : Bool
  errors : List UErr
  nodesUpgraded : List String
  failedNodes : List String
  rollbackRequired : Bool
deriving DecidableEq, Repr

/-- The zero value `PerformUpgrade` starts from. -/
def emptyResult : UpgradeResult :=
  ⟨false, false, [], [], [], false⟩

/-- The package-local `contains` helper. -/
def contains (slice : List String) (item : String) : Bool :=
  match slice with
  | [] => false
  | s :: rest => if s = item then true else contains rest item

/-- `UpgradeResult.HasErrors`. -/
def UpgradeResult.HasErrors (r : UpgradeResult) : Bool :=
  0 < r.errors.length

/-- `UpgradeResult.AddUpgradedNode`: append if not already present. -/
def AddUpgradedNode (r : UpgradeResult) (nodeName : String) : UpgradeResult :=
  if contains r.nodesUpgraded nodeName then r
  else { r with nodesUpgraded := r.nodesUpgraded ++ [nodeName] }

/-- `UpgradeResult.AddFailedNode`: append if not already present, and set the
rollback flag unconditionally. -/
def AddFailedNode (r : UpgradeResult) (nodeName : String) : UpgradeResult :=
  let r1 := if contains r.failedNodes nodeName then r
            else { r with failedNodes := r.failedNodes ++ [nodeName] }
  { r1 with rollbackRequired := true }

/-- `version.ValidateTargetVersion`: format check, then membership in the
supported-version list fetched from the release index (the network fetch with
its retry loop is the `releases` oracle). -/
def ValidateTargetVersion (targetVersion : List Char)
    (releases : Except UErr (List (List Char))) : Except UErr Unit :=
  if !Version.ValidateVersion targetVersion then .error .invalidTargetFormat
  else
    match releases with
    | .error _ => .error .releaseLookupFailed
    | .ok supportedVersions =>
      if supportedVersions.contains targetVersion then .ok ()
      else .error .notYetReleased

/-- `validateUpgradePrerequisites`: every node must be ready and at least one
control-plane node must exist. -/
def validateUpgradePrerequisites (env : Env) : Except UErr Unit × List Event :=
  match env.clusterInfo with
  | .error e => (.error e, [.fetchClusterInfo])
  | .ok clusterInfo =>
    let notReadyNodes := (clusterInfo.nodes.filter (fun n => !n.ready)).map (fun n => n.name)
    if 0 < notReadyNodes.length then (.error (.nodesNotReady notReadyNodes), [.fetchClusterInfo])
    else
      let controlPlaneCount := (clusterInfo.nodes.filter (fun n => n.isControlPlane)).length
      if controlPlaneCount = 0 then (.error .noControlPlane, [.fetchClusterInfo])
      else (.ok (), [.fetchClusterInfo])

/-- The first-match node search of `checkNodeHealth`'s loop over
`clusterInfo.Nodes`. -/
def findNode : List NodeInfo → String → Option NodeInfo
  | [], _ => none
  | node :: rest, name => if node.name = name then some node else findNode rest name

/-- The `nodeMap` lookup of the sequencers: Go builds `map[string]NodeInfo`
by inserting the nodes in order, so a later node with a duplicate name
overwrites an earlier one — the lookup finds the last match. -/
def lookupNode : List NodeInfo → String → Option NodeInfo
  | [], _ => none
  | node :: rest, name =>
    match lookupNode rest name with
    | some found => some found
    | none => if node.name = name then some node else none

/-- `checkNodeHealth`: refetch the cluster snapshot, find the node, require
readiness, then compare the layer-relevant version with the target (per-node
Talos version for the host layer, the cluster-wide Kubernetes version for the
orchestration layer). -/
def checkNodeHealth (env : Env) (nodeName : String) (targetVersion : List Char)
    (upgradeType : Layer) : Except UErr Bool × List Event :=
  match env.clusterInfo with
  | .error e => (.error e, [.fetchClusterInfo])
  | .ok clusterInfo =>
    match findNode clusterInfo.nodes nodeName with
    | some node =>
      if !node.ready then (.ok false, [.fetchClusterInfo])
      else
        match upgradeType with
        | .talos => (.ok (decide (node.talosVersion = targetVersion)), [.fetchClusterInfo])
        | .kubernetes => (.ok (decide (clusterInfo.k8sVersion = targetVersion)), [.fetchClusterInfo])
    | none => (.error (.nodeNotFound nodeName), [.fetchClusterInfo])

end Upgrade

namespace Upgrade

/-- One ticker firing of `monitorUpgradeProgress`: walk the batch, skip nodes
already marked successful or failed, check health (an error while checking is
logged and skipped), and remember newly converged nodes. -/
def monitorCheckNodes (env : Env) (targetVersion : List Char) (upgradeType : Layer)
    (failedNodes : List String) :
    List String → List String → List String × List Event
  | [], successfulNodes => (successfulNodes, [])
  | nodeName :: rest, successfulNodes =>
    if contains successfulNodes nodeName then
      monitorCheckNodes env targetVersion upgradeType failedNodes rest successfulNodes
    else if contains failedNodes nodeName then
      monitorCheckNodes env targetVersion upgradeType failedNodes rest successfulNodes
    else
      match checkNodeHealth env nodeName targetVersion upgradeType with
      | (.error _, tr) =>
        let (s, tr2) := monitorCheckNodes env targetVersion upgradeType failedNodes rest successfulNodes
        (s, tr ++ tr2)
      | (.ok healthy, tr) =>
        let successfulNodes2 := if healthy then successfulNodes ++ [nodeName] else successfulNodes
        let (s, tr2) := monitorCheckNodes env targetVersion upgradeType failedNodes rest successfulNodes2
        (s, tr ++ tr2)

/-- The `select` loop of `monitorUpgradeProgress`, with the number of ticker
firings still to come before the 10-minute deadline as fuel.  When the
deadline fires, the monitor fails only if `failedNodes` is non-empty —
faithful to the source, where `failedNodes` is declared but never appended
to. -/
def monitorLoop (env : Env) (targetVersion : List Char) (nodeNames : List String)
    (upgradeType : Layer) :
    Nat → List String → List String → Except UErr Unit × List Event
  | 0, _successfulNodes, failedNodes =>
    if 0 < failedNodes.length then (.error (.monitorTimeout failedNodes), [])
    else (.ok (), [])
  | n + 1, successfulNodes, failedNodes =>
    let (successfulNodes2, tr) :=
      monitorCheckNodes env targetVersion upgradeType failedNodes nodeNames successfulNodes
    if successfulNodes2.length = nodeNames.length then (.ok (), tr)
    else
      let (r, tr2) := monitorLoop env targetVersion nodeNames upgradeType n successfulNodes2 failedNodes
      (r, tr ++ tr2)

/-- `monitorUpgradeProgress`: poll every 30 seconds within a 10-minute
deadline until all batch nodes are converged. -/
def monitorUpgradeProgress (env : Env) (targetVersion : List Char)
    (nodeNames : List String) (upgradeType : Layer) : Except UErr Unit × List Event :=
  monitorLoop env targetVersion nodeNames upgradeType env.monitorPolls [] []

/-- The per-node loop of `upgradeNodesSequentiallyWithResult`: resolve the
node (a missing node aborts the whole batch), invoke the node upgrader (on
failure record and continue), then wait for the reboot (on timeout record as
failed, on success record as upgraded).  The `result` is `none` when the
caller passed a nil result pointer, in which case nothing is recorded. -/
def seqNodesLoop (env : Env) (cfg : Config) (allNodes : List NodeInfo) :
    List String → Option UpgradeResult →
    Except UErr Unit × Option UpgradeResult × List Event
  | [], result => (.ok (), result, [])
  | nodeName :: rest, result =>
    match lookupNode allNodes nodeName with
    | none => (.error (.nodeNotFound nodeName), result, [])
    | some nodeInfo =>
      let fullImageRef := cfg.talos.imageID ++ ':' :: cfg.talos.version
      match env.upgradeNode nodeInfo.endpoint fullImageRef with
      | .error e =>
        let result2 := match result with
          | some r =>
            let r1 := AddFailedNode r nodeName
            some { r1 with errors := r1.errors ++ [e] }
          | none => none
        let (x, result3, tr) := seqNodesLoop env cfg allNodes rest result2
        (x, result3, Event.upgradeNode nodeInfo.endpoint :: tr)
      | .ok _ =>
        match env.waitForNodeReboot nodeInfo.endpoint with
        | .error e =>
          let result2 := match result with
            | some r =>
              let r1 := AddFailedNode r nodeName
              some { r1 with errors := r1.errors ++ [e] }
            | none => none
          let (x, result3, tr) := seqNodesLoop env cfg allNodes rest result2
          (x, result3,
            Event.upgradeNode nodeInfo.endpoint :: Event.waitReboot nodeInfo.endpoint :: tr)
        | .ok _ =>
          let result2 := match result with
            | some r => some (AddUpgradedNode r nodeName)
            | none => none
          let (x, result3, tr) := seqNodesLoop env cfg allNodes rest result2
          (x, result3,
            Event.upgradeNode nodeInfo.endpoint :: Event.waitReboot nodeInfo.endpoint :: tr)

/-- `upgradeNodesSequentiallyWithResult`: run the per-node loop, then monitor
the whole batch against the configured Talos target version; a monitoring
failure is surfaced as the batch error. -/
def upgradeNodesSequentiallyWithResult (env : Env) (cfg : Config)
    (nodeNames : List String) (allNodes : List NodeInfo)
    (result : Option UpgradeResult) :
    Except UErr Unit × Option UpgradeResult × List Event :=
  match seqNodesLoop env cfg allNodes nodeNames result with
  | (.error e, result2, tr) => (.error e, result2, tr)
  | (.ok _, result2, tr) =>
    match monitorUpgradeProgress env cfg.talos.version nodeNames .talos with
    | (.error e, tr2) => (.error e, result2, tr ++ tr2)
    | (.ok _, tr2) => (.ok (), result2, tr ++ tr2)

/-- `upgradeNodesSequentially`: the variant `upgradeTalos` actually calls —
with a nil result, so no per-node outcome is recorded anywhere. -/
def upgradeNodesSequentially (env : Env) (cfg : Config) (nodeNames : List String)
    (allNodes : List NodeInfo) : Except UErr Unit × List Event :=
  match upgradeNodesSequentiallyWithResult env cfg nodeNames allNodes none with
  | (x, _, tr) => (x, tr)

/-- One `if len(group) > 0 { upgradeNodesSequentially(...) }` block of
`upgradeTalos`. -/
def talosGroup (env : Env) (cfg : Config) (names : List String)
    (allNodes : List NodeInfo) : Except UErr Unit × List Event :=
  if names.length = 0 then (.ok (), [])
  else upgradeNodesSequentially env cfg names allNodes

/-- The two role-group blocks of `upgradeTalos`, run in the given order; the
first group's error aborts before the second group runs. -/
def talosGroups (env : Env) (cfg : Config) (first second : List String)
    (allNodes : List NodeInfo) : Except UErr Unit × List Event :=
  match talosGroup env cfg first allNodes with
  | (.error e, tr) => (.error e, tr)
  | (.ok _, tr) =>
    match talosGroup env cfg second allNodes with
    | (.error e, tr2) => (.error e, tr ++ tr2)
    | (.ok _, tr2) => (.ok (), tr ++ tr2)

/-- `upgradeTalos`: fetch the snapshot, partition nodes into control-plane and
workers, and sequence the two groups in the configured order
(`workers-first`, or control-plane first by default). -/
def upgradeTalos (env : Env) (cfg : Config) : Except UErr Unit × List Event :=
  match env.clusterInfo with
  | .error e => (.error e, [.fetchClusterInfo])
  | .ok clusterInfo =>
    let controlPlaneNodes :=
      (clusterInfo.nodes.filter (fun n => n.isControlPlane)).map (fun n => n.name)
    let workerNodes :=
      (clusterInfo.nodes.filter (fun n => !n.isControlPlane)).map (fun n => n.name)
    let (x, tr) :=
      if cfg.talos.upgradeOrder = "workers-first" then
        talosGroups env cfg workerNodes controlPlaneNodes clusterInfo.nodes
      else
        talosGroups env cfg controlPlaneNodes workerNodes clusterInfo.nodes
    (x, Event.fetchClusterInfo :: tr)

/-- The per-node loop of `upgradeKubernetesOnNodes`: resolve the node, upgrade
Kubernetes on it via the Talos cluster API — and, unlike the Talos sequencer,
abort the whole batch on the first per-node failure. -/
def k8sNodesLoop (env : Env) (allNodes : List NodeInfo) :
    List String → Except UErr Unit × List Event
  | [] => (.ok (), [])
  | nodeName :: rest =>
    match lookupNode allNodes nodeName with
    | none => (.error (.nodeNotFound nodeName), [])
    | some nodeInfo =>
      match env.upgradeK8sOnNode nodeInfo.endpoint with
      | .error e => (.error e, [Event.upgradeK8s nodeInfo.endpoint])
      | .ok _ =>
        let (x, tr) := k8sNodesLoop env allNodes rest
        (x, Event.upgradeK8s nodeInfo.endpoint :: tr)

/-- `upgradeKubernetesOnNodes`: the per-node loop followed by batch
monitoring against the configured Kubernetes target version. -/
def upgradeKubernetesOnNodes (env : Env) (cfg : Config) (nodeNames : List String)
    (allNodes : List NodeInfo) : Except UErr Unit × List Event :=
  match k8sNodesLoop env allNodes nodeNames with
  | (.error e, tr) => (.error e, tr)
  | (.ok _, tr) =>
    match monitorUpgradeProgress env cfg.k8s.version nodeNames .kubernetes with
    | (.error e, tr2) => (.error e, tr ++ tr2)
    | (.ok _, tr2) => (.ok (), tr ++ tr2)

/-- One `if len(group) > 0 { upgradeKubernetesOnNodes(...) }` block of
`upgradeKubernetes`. -/
def k8sGroup (env : Env) (cfg : Config) (names : List String)
    (allNodes : List NodeInfo) : Except UErr Unit × List Event :=
  if names.length = 0 then (.ok (), [])
  else upgradeKubernetesOnNodes env cfg names allNodes

/-- The two role-group blocks of `upgradeKubernetes`. -/
def k8sGroups (env : Env) (cfg : Config) (first second : List String)
    (allNodes : List NodeInfo) : Except UErr Unit × List Event :=
  match k8sGroup env cfg first allNodes with
  | (.error e, tr) => (.error e, tr)
  | (.ok _, tr) =>
    match k8sGroup env cfg second allNodes with
    | (.error e, tr2) => (.error e, tr ++ tr2)
    | (.ok _, tr2) => (.ok (), tr ++ tr2)

/-- `upgradeKubernetes`: fetch the snapshot, partition by role, sequence the
two groups in the configured Kubernetes order. -/
def upgradeKubernetes (env : Env) (cfg : Config) : Except UErr Unit × List Event :=
  match env.clusterInfo with
  | .error e => (.error e, [.fetchClusterInfo])
  | .ok clusterInfo =>
    let controlPlaneNodes :=
      (clusterInfo.nodes.filter (fun n => n.isControlPlane)).map (fun n => n.name)
    let workerNodes :=
      (clusterInfo.nodes.filter (fun n => !n.isControlPlane)).map (fun n => n.name)
    let (x, tr) :=
      if cfg.k8s.upgradeOrder = "workers-first" then
        k8sGroups env cfg workerNodes controlPlaneNodes clusterInfo.nodes
      else
        k8sGroups env cfg controlPlaneNodes workerNodes clusterInfo.nodes
    (x, Event.fetchClusterInfo :: tr)

/-- `checkTalosUpgradeNeeded`: per node, `version.NeedsUpgrade` against the
target; a comparator error counts the node as needing an upgrade. -/
def checkTalosUpgradeNeeded (cfg : Config) (clusterInfo : ClusterInfo) :
    Bool × List String :=
  let nodesToUpgrade := clusterInfo.nodes.foldl (fun acc node =>
    match Version.NeedsUpgrade node.talosVersion cfg.talos.version with
    | none => acc ++ [node.name]
    | some true => acc ++ [node.name]
    | some false => acc) []
  (0 < nodesToUpgrade.length, nodesToUpgrade)

end Upgrade

namespace Upgrade

/-- The Talos block of `PerformUpgrade`: release gate first (a gate failure
skips the layer without recording an error), then — if any node needs the
upgrade — run `upgradeTalos`, recording either the error or the
`TalosUpgraded` flag. -/
def talosStage (env : Env) (cfg : Config) (result : UpgradeResult)
    (talosNeedsUpgrade : Bool) : UpgradeResult × List Event :=
  match ValidateTargetVersion cfg.talos.version env.talosReleases with
  | .error _ => (result, [Event.gateCheck .talos])
  | .ok _ =>
    if talosNeedsUpgrade then
      match upgradeTalos env cfg with
      | (.error e, tr) =>
        ({ result with errors := result.errors ++ [e] }, Event.gateCheck .talos :: tr)
      | (.ok _, tr) =>
        ({ result with talosUpgraded := true }, Event.gateCheck .talos :: tr)
    else (result, [Event.gateCheck .talos])

/-- The Kubernetes block of `PerformUpgrade`: release gate, then the
cluster-wide `NeedsUpgrade` comparison (its failure is recorded as a result
error), then — if needed — `upgradeKubernetes`, recording either the error or
the `K8sUpgraded` flag.  (The 2-minute stabilization sleep after a Talos
upgrade has no observable effect in this model.) -/
def k8sStage (env : Env) (cfg : Config) (result : UpgradeResult)
    (clusterK8sVersion : List Char) : UpgradeResult × List Event :=
  match ValidateTargetVersion cfg.k8s.version env.k8sReleases with
  | .error _ => (result, [Event.gateCheck .kubernetes])
  | .ok _ =>
    match Version.NeedsUpgrade clusterK8sVersion cfg.k8s.version with
    | none =>
      ({ result with errors := result.errors ++ [UErr.versionCheckFailed] },
        [Event.gateCheck .kubernetes])
    | some true =>
      match upgradeKubernetes env cfg with
      | (.error e, tr) =>
        ({ result with errors := result.errors ++ [e] }, Event.gateCheck .kubernetes :: tr)
      | (.ok _, tr) =>
        ({ result with k8sUpgraded := true }, Event.gateCheck .kubernetes :: tr)
    | some false => (result, [Event.gateCheck .kubernetes])

/-- `PerformUpgrade`: validate prerequisites (their failure aborts the run and
is both recorded in the result and returned as the run-level error), fetch the
snapshot, decide the per-node Talos need, then run the Talos block and the
Kubernetes block; past the prerequisites the run-level error is always nil. -/
def PerformUpgrade (env : Env) (cfg : Config) :
    (UpgradeResult × Option UErr) × List Event :=
  let result := emptyResult
  match validateUpgradePrerequisites env with
  | (.error e, tr) =>
    (({ result with errors := result.errors ++ [e] }, some e), tr)
  | (.ok _, tr0) =>
    match env.clusterInfo with
    | .error e =>
      (({ result with errors := result.errors ++ [e] }, some e),
        tr0 ++ [Event.fetchClusterInfo])
    | .ok clusterInfo =>
      let talosNeedsUpgrade := (checkTalosUpgradeNeeded cfg clusterInfo).1
      let stage1 := talosStage env cfg result talosNeedsUpgrade
      let stage2 := k8sStage env cfg stage1.1 clusterInfo.k8sVersion
      ((stage2.1, none), tr0 ++ [Event.fetchClusterInfo] ++ stage1.2 ++ stage2.2)

/-- `CheckOnly`: fetch the snapshot, compare the cluster-wide Talos version
(a comparison failure aborts), run the release gate for both layers, and — if
the Kubernetes gate passed — compare the cluster-wide Kubernetes version (a
comparison failure aborts).  Only decisions are computed; no upgrader is ever
invoked. -/
def CheckOnly (env : Env) (cfg : Config) : Except UErr Unit × List Event :=
  match env.clusterInfo with
  | .error e => (.error e, [.fetchClusterInfo])
  | .ok clusterInfo =>
    match Version.NeedsUpgrade clusterInfo.talosVersion cfg.talos.version with
    | none => (.error .versionCheckFailed, [.fetchClusterInfo])
    | some talosNeedsUpgrade =>
      let talosVersionAvailable :=
        match ValidateTargetVersion cfg.talos.version env.talosReleases with
        | .error _ => false
        | .ok _ => true
      -- when the gate failed, the source also forces talosNeedsUpgrade to false
      let _talosNeedsUpgrade2 := if talosVersionAvailable then talosNeedsUpgrade else false
      match ValidateTargetVersion cfg.k8s.version env.k8sReleases with
      | .error _ =>
        (.ok (), [.fetchClusterInfo, .gateCheck .talos, .gateCheck .kubernetes])
      | .ok _ =>
        match Version.NeedsUpgrade clusterInfo.k8sVersion cfg.k8s.version with
        | none =>
          (.error .versionCheckFailed,
            [.fetchClusterInfo, .gateCheck .talos, .gateCheck .kubernetes])
        | some _k8sNeedsUpgrade =>
          (.ok (), [.fetchClusterInfo, .gateCheck .talos, .gateCheck .kubernetes])

end Upgrade

namespace Upgrade

/-- A ready control-plane node at Talos v1.0.0. -/
def cpNode : NodeInfo :=
  { name := "node1", talosVersion := str "v1.0.0", ready := true,
    isControlPlane := true, endpoint := "10.0.0.1" }

/-- A snapshot with the single control-plane node. -/
def oneNodeCluster : ClusterInfo :=
  { talosVersion := str "v1.0.0", k8sVersion := str "v1.30.0", nodes := [cpNode] }

/-- Configuration targeting Talos v1.0.1 and Kubernetes v1.30.1. -/
def cfg0 : Config :=
  { talos := { imageID := str "factory.talos.dev/installer/x", version := str "v1.0.1",
               upgradeOrder := "control-plane-first" },
    k8s := { version := str "v1.30.1", upgradeOrder := "control-plane-first" } }

/-- Environment in which the single node never reaches the target version and
the 10-minute deadline passes after 20 ticker firings: the batch never
converges. -/
def envStuck : Env :=
  { clusterInfo := .ok oneNodeCluster,
    talosReleases := .ok [str "v1.0.1"],
    k8sReleases := .ok [str "v1.30.1"],
    upgradeNode := fun _ _ => .ok (),
    waitForNodeReboot := fun _ => .ok (),
    upgradeK8sOnNode := fun _ => .ok (),
    monitorPolls := 20 }

/-- Environment in which the only node's Talos upgrade invocation fails, the
Kubernetes release lookup fails (so that layer is skipped), and the monitor
deadline fires at once. -/
def envNodeFails : Env :=
  { clusterInfo := .ok oneNodeCluster,
    talosReleases := .ok [str "v1.0.1"],
    k8sReleases := .error .releaseLookupFailed,
    upgradeNode := fun _ _ => .error (.upgradeInitFailed "node1"),
    waitForNodeReboot := fun _ => .ok (),
    upgradeK8sOnNode := fun _ => .ok (),
    monitorPolls := 0 }

/-- Three ready worker-free control-plane nodes for the sequencer runs. -/
def threeNodes : List NodeInfo :=
  [ { name := "n1", talosVersion := str "v1.0.0", ready := true,
      isControlPlane := true, endpoint := "e1" },
    { name := "n2", talosVersion := str "v1.0.0", ready := true,
      isControlPlane := true, endpoint := "e2" },
    { name := "n3", talosVersion := str "v1.0.0", ready := true,
      isControlPlane := true, endpoint := "e3" } ]

/-- Environment where only node `n2`'s upgrade invocation (either layer)
fails; reboots succeed; the monitor deadline fires at once. -/
def envSecondFails : Env :=
  { clusterInfo := .ok { talosVersion := str "v1.0.0", k8sVersion := str "v1.30.0",
                         nodes := threeNodes },
    talosReleases := .ok [str "v1.0.1"],
    k8sReleases := .ok [str "v1.30.1"],
    upgradeNode := fun endpoint _ =>
      if endpoint = "e2" then .error (.upgradeInitFailed "n2") else .ok (),
    waitForNodeReboot := fun _ => .ok (),
    upgradeK8sOnNode := fun endpoint =>
      if endpoint = "e2" then .error (.k8sNodeUpgradeFailed "n2") else .ok (),
    monitorPolls := 0 }

/-- Snapshot with one not-ready worker next to a ready control-plane node. -/
def notReadyCluster : ClusterInfo :=
  { talosVersion := str "v1.0.0", k8sVersion := str "v1.30.0",
    nodes := [ cpNode,
               { name := "node2", talosVersion := str "v1.0.0", ready := false,
                 isControlPlane := false, endpoint := "10.0.0.2" } ] }

/-- Environment whose snapshot contains a not-ready node. -/
def envNotReady : Env :=
  { clusterInfo := .ok notReadyCluster,
    talosReleases := .ok [str "v1.0.1"],
    k8sReleases := .ok [str "v1.30.1"],
    upgradeNode := fun _ _ => .ok (),
    waitForNodeReboot := fun _ => .ok (),
    upgradeK8sOnNode := fun _ => .ok (),
    monitorPolls := 0 }

/-- Environment where the Talos release gate fails (the target is missing
from the release list) while the Kubernetes gate succeeds and the Kubernetes
upgrade is needed and succeeds. -/
def envGateSplit : Env :=
  { clusterInfo := .ok oneNodeCluster,
    talosReleases := .ok [str "v9.9.9"],
    k8sReleases := .ok [str "v1.30.1"],
    upgradeNode := fun _ _ => .ok (),
    waitForNodeReboot := fun _ => .ok (),
    upgradeK8sOnNode := fun _ => .ok (),
    monitorPolls := 1 }

end Upgrade

/-!  Theorems.  -/

/-- C1: per the design, `monitorUpgradeProgress` must terminate with a timeout
failure naming the outstanding nodes when the 10-minute deadline elapses
before the batch converges.  In the code the `failedNodes` list is declared
but never appended to, so the timeout branch always takes the success path:
with a non-empty batch whose single node never reports the target version
(and 20 polls elapsing before the deadline), the monitor returns success. -/
theorem c1_monitor_reports_success_without_convergence :
    (Upgrade.monitorUpgradeProgress Upgrade.envStuck (str "v1.0.1") ["node1"] .talos).1
      = .ok ()
    ∧ (Upgrade.checkNodeHealth Upgrade.envStuck "node1" (str "v1.0.1") .talos).1
      = .ok false :=
  ⟨rfl, rfl⟩

/-- C2: per the design, a node whose upgrade fails during a `PerformUpgrade`
run must appear in the result's `FailedNodes` with `RollbackRequired` set.
In the code `upgradeTalos` reaches the sequencer through
`upgradeNodesSequentially`, which passes a nil result, so `AddFailedNode` is
never invoked on the returned result: with the single node's upgrade
invocation failing (visible in the trace and in the oracle), the run returns
an empty failed-node list, `RollbackRequired == false`, no errors, and even
`TalosUpgraded == true`. -/
theorem c2_failed_node_never_recorded_in_result :
    (Upgrade.PerformUpgrade Upgrade.envNodeFails Upgrade.cfg0).1.1.failedNodes = []
    ∧ (Upgrade.PerformUpgrade Upgrade.envNodeFails Upgrade.cfg0).1.1.rollbackRequired = false
    ∧ (Upgrade.PerformUpgrade Upgrade.envNodeFails Upgrade.cfg0).1.1.errors = []
    ∧ (Upgrade.PerformUpgrade Upgrade.envNodeFails Upgrade.cfg0).1.1.talosUpgraded = true
    ∧ Upgrade.Event.upgradeNode "10.0.0.1" ∈ (Upgrade.PerformUpgrade Upgrade.envNodeFails Upgrade.cfg0).2
    ∧ Upgrade.envNodeFails.upgradeNode "10.0.0.1" (str "factory.talos.dev/installer/x:v1.0.1")
      = .error (.upgradeInitFailed "node1") :=
  ⟨rfl, rfl, rfl, rfl, by decide, rfl⟩

/-- C3 counterexample: the claim asserts failure isolation for both sequencer
variants; in the Kubernetes variant (`upgradeKubernetesOnNodes`), a batch of
3 nodes whose 2nd fails its upgrade invocation aborts with that error and the
3rd node is never attempted (its endpoint never appears in the trace). -/
theorem c3_counterexample_k8s_variant_aborts_batch :
    Upgrade.upgradeKubernetesOnNodes Upgrade.envSecondFails Upgrade.cfg0
        ["n1", "n2", "n3"] Upgrade.threeNodes
      = (.error (.k8sNodeUpgradeFailed "n2"),
         [.upgradeK8s "e1", .upgradeK8s "e2"])
    ∧ Upgrade.Event.upgradeK8s "e3" ∉
        (Upgrade.upgradeKubernetesOnNodes Upgrade.envSecondFails Upgrade.cfg0
          ["n1", "n2", "n3"] Upgrade.threeNodes).2 :=
  ⟨rfl, by decide⟩

/-- C3 amended: the host-layer (Talos) sequencer isolates a single node's
upgrade-invocation failure — with 3 nodes whose 2nd fails, the tracked result
holds exactly 2 successes and 1 failure (with the error appended and rollback
flagged) and the 3rd node is still attempted — whereas the orchestration-layer
(Kubernetes) sequencer aborts the batch at the first failing node, leaving
later nodes unattempted. -/
theorem c3_amended_talos_isolates_k8s_aborts :
    (Upgrade.upgradeNodesSequentiallyWithResult Upgrade.envSecondFails Upgrade.cfg0
        ["n1", "n2", "n3"] Upgrade.threeNodes (some Upgrade.emptyResult)).2.1
      = some { talosUpgraded := false, k8sUpgraded := false,
               errors := [.upgradeInitFailed "n2"],
               nodesUpgraded := ["n1", "n3"], failedNodes := ["n2"],
               rollbackRequired := true }
    ∧ Upgrade.Event.upgradeNode "e3" ∈
        (Upgrade.upgradeNodesSequentiallyWithResult Upgrade.envSecondFails Upgrade.cfg0
          ["n1", "n2", "n3"] Upgrade.threeNodes (some Upgrade.emptyResult)).2.2
    ∧ (Upgrade.k8sNodesLoop Upgrade.envSecondFails Upgrade.threeNodes ["n1", "n2", "n3"])
      = (.error (.k8sNodeUpgradeFailed "n2"), [.upgradeK8s "e1", .upgradeK8s "e2"]) :=
  ⟨rfl, by decide, rfl⟩

/-- C6: the claim (and the parser's own comment, which cites `"1.10.5-alpha.1"`
as an example it handles) says a pre-release suffix on the last component is
discarded before numeric parsing.  `version.parseVersion` splits on `.`
before stripping the suffix, so a suffix containing a dot yields 4 components
and the parse fails; a dot-free suffix (`v1.2.3-alpha`) is accepted as
(1,2,3), and the Sscanf-based `k8s.parseVersion` — which strips from the
first `-` before scanning — accepts `v1.2.3-alpha.1` as (1,2,3). -/
theorem c6_version_parser_rejects_dotted_prerelease :
    Version.parseVersion (trimV (str "v1.2.3-alpha.1")) = none
    ∧ Version.Compare (str "v1.2.3-alpha.1") (str "v1.2.3") = none
    ∧ Version.parseVersion (trimV (str "v1.2.3-alpha")) = some ⟨1, 2, 3⟩
    ∧ K8s.parseVersion (trimV (str "v1.2.3-alpha.1")) = some ⟨1, 2, 3⟩ :=
  ⟨rfl, rfl, rfl, rfl⟩

/-- Helper: when the snapshot has a not-ready node or no control-plane node,
`validateUpgradePrerequisites` fails after its single snapshot fetch. -/
theorem validateUpgradePrerequisites_fails (env : Upgrade.Env) (ci : Upgrade.ClusterInfo)
    (hci : env.clusterInfo = .ok ci)
    (h : (∃ n ∈ ci.nodes, n.ready = false) ∨ (∀ n ∈ ci.nodes, n.isControlPlane = false)) :
    ∃ e, Upgrade.validateUpgradePrerequisites env = (.error e, [.fetchClusterInfo]) := by
  unfold Upgrade.validateUpgradePrerequisites
  rw [hci]
  by_cases hlen : 0 < (ci.nodes.filter (fun n => !n.ready)).length
  · refine ⟨.nodesNotReady ((ci.nodes.filter (fun n => !n.ready)).map (fun n => n.name)), ?_⟩
    simp [hlen]
  · rcases h with ⟨n, hn, hr⟩ | hcp
    · exact absurd
        (List.length_pos.2 (List.ne_nil_of_mem (List.mem_filter.2 ⟨hn, by simp [hr]⟩)))
        hlen
    · refine ⟨.noControlPlane, ?_⟩
      have hzero : (ci.nodes.filter (fun n => n.isControlPlane)).length = 0 := by
        rw [List.length_eq_zero]
        refine List.filter_eq_nil_iff.2 ?_
        intro a ha
        simp [hcp a ha]
      simp [hlen, hzero]

/-- C4: if the snapshot contains a not-ready node, or no control-plane node at
all, `PerformUpgrade` aborts with a run-level error after the single
prerequisite snapshot fetch — in particular before any node or workload
upgrader is invoked (the trace holds no upgrader call at all). -/
theorem c4_prerequisites_abort_run (env : Upgrade.Env) (cfg : Upgrade.Config)
    (ci : Upgrade.ClusterInfo) (hci : env.clusterInfo = .ok ci)
    (h : (∃ n ∈ ci.nodes, n.ready = false) ∨ (∀ n ∈ ci.nodes, n.isControlPlane = false)) :
    (Upgrade.PerformUpgrade env cfg).1.2.isSome = true
    ∧ (Upgrade.PerformUpgrade env cfg).2 = [.fetchClusterInfo]
    ∧ (Upgrade.PerformUpgrade env cfg).2.all (fun e => !e.isUpgraderCall) = true := by
  obtain ⟨e, he⟩ := validateUpgradePrerequisites_fails env ci hci h
  refine ⟨?_, ?_, ?_⟩ <;> simp [Upgrade.PerformUpgrade, he, Upgrade.Event.isUpgraderCall]

/-- C4 witness: the concrete environment whose snapshot holds the not-ready
node `node2`. -/
theorem c4_witness :
    (Upgrade.PerformUpgrade Upgrade.envNotReady Upgrade.cfg0).1.2.isSome = true
    ∧ (Upgrade.PerformUpgrade Upgrade.envNotReady Upgrade.cfg0).2 = [.fetchClusterInfo]
    ∧ (Upgrade.PerformUpgrade Upgrade.envNotReady Upgrade.cfg0).2.all
        (fun e => !e.isUpgraderCall) = true :=
  c4_prerequisites_abort_run Upgrade.envNotReady Upgrade.cfg0 Upgrade.notReadyCluster rfl
    (Or.inl ⟨Upgrade.notReadyCluster.nodes[1], by decide, rfl⟩)

/-- Helper: with every node ready and at least one control-plane node,
`validateUpgradePrerequisites` succeeds after its snapshot fetch. -/
theorem validateUpgradePrerequisites_ok (env : Upgrade.Env) (ci : Upgrade.ClusterInfo)
    (hci : env.clusterInfo = .ok ci)
    (hready : ∀ n ∈ ci.nodes, n.ready = true)
    (hcp : ∃ n ∈ ci.nodes, n.isControlPlane = true) :
    Upgrade.validateUpgradePrerequisites env = (.ok (), [.fetchClusterInfo]) := by
  unfold Upgrade.validateUpgradePrerequisites
  rw [hci]
  have h1 : ci.nodes.filter (fun n => !n.ready) = [] :=
    List.filter_eq_nil_iff.2 (fun a ha => by simp [hready a ha])
  obtain ⟨n, hn, hc⟩ := hcp
  have h2 : 0 < (ci.nodes.filter (fun n => n.isControlPlane)).length :=
    List.length_pos.2 (List.ne_nil_of_mem (List.mem_filter.2 ⟨hn, by simp [hc]⟩))
  simp [h1, h2.ne']

/-- C5: when the release gate fails for the Talos layer but succeeds for the
Kubernetes layer, `PerformUpgrade` skips the Talos upgrade for the run —
`TalosUpgraded` stays false and the gate failure is not recorded as an
error — while the Kubernetes upgrade, being needed and succeeding, still
proceeds and sets `K8sUpgraded`. -/
theorem c5_layers_gated_independently (env : Upgrade.Env) (cfg : Upgrade.Config)
    (ci : Upgrade.ClusterInfo) (e : Upgrade.UErr)
    (hci : env.clusterInfo = .ok ci)
    (hready : ∀ n ∈ ci.nodes, n.ready = true)
    (hcp : ∃ n ∈ ci.nodes, n.isControlPlane = true)
    (hgateT : Upgrade.ValidateTargetVersion cfg.talos.version env.talosReleases = .error e)
    (hgateK : Upgrade.ValidateTargetVersion cfg.k8s.version env.k8sReleases = .ok ())
    (hneed : Version.NeedsUpgrade ci.k8sVersion cfg.k8s.version = some true)
    (hk8s : (Upgrade.upgradeKubernetes env cfg).1 = .ok ()) :
    (Upgrade.PerformUpgrade env cfg).1.1.talosUpgraded = false
    ∧ (Upgrade.PerformUpgrade env cfg).1.1.k8sUpgraded = true
    ∧ (Upgrade.PerformUpgrade env cfg).1.1.errors = []
    ∧ (Upgrade.PerformUpgrade env cfg).1.2 = none := by
  have hval := validateUpgradePrerequisites_ok env ci hci hready hcp
  obtain ⟨trK, hk8spair⟩ : ∃ tr2, Upgrade.upgradeKubernetes env cfg = (.ok (), tr2) :=
    ⟨(Upgrade.upgradeKubernetes env cfg).2, by rw [← hk8s]⟩
  refine ⟨?_, ?_, ?_, ?_⟩ <;>
    simp [Upgrade.PerformUpgrade, hval, hci, Upgrade.talosStage, hgateT,
          Upgrade.k8sStage, hgateK, hneed, hk8spair, Upgrade.emptyResult]

/-- C5 witness: the concrete split-gate environment. -/
theorem c5_witness :
    (Upgrade.PerformUpgrade Upgrade.envGateSplit Upgrade.cfg0).1.1.talosUpgraded = false
    ∧ (Upgrade.PerformUpgrade Upgrade.envGateSplit Upgrade.cfg0).1.1.k8sUpgraded = true
    ∧ (Upgrade.PerformUpgrade Upgrade.envGateSplit Upgrade.cfg0).1.1.errors = []
    ∧ (Upgrade.PerformUpgrade Upgrade.envGateSplit Upgrade.cfg0).1.2 = none :=
  c5_layers_gated_independently Upgrade.envGateSplit Upgrade.cfg0 Upgrade.oneNodeCluster
    .notYetReleased rfl (by decide) ⟨Upgrade.cpNode, by decide, rfl⟩ rfl rfl rfl rfl

/-- C7: for version strings that both parse, `NeedsUpgrade(current, target)`
is true exactly when `Compare(current, target)` is `Older`; on `Equal` and on
`Newer` (a downgrade request) it is false. -/
theorem c7_needsUpgrade_iff_older (currentVersion targetVersion : List Char)
    (pc pt : Parts)
    (h1 : Version.parseVersion (trimV currentVersion) = some pc)
    (h2 : Version.parseVersion (trimV targetVersion) = some pt) :
    (Version.NeedsUpgrade currentVersion targetVersion = some true
      ↔ Version.Compare currentVersion targetVersion = some .Older)
    ∧ (Version.Compare currentVersion targetVersion = some .Equal →
        Version.NeedsUpgrade currentVersion targetVersion = some false)
    ∧ (Version.Compare currentVersion targetVersion = some .Newer →
        Version.NeedsUpgrade currentVersion targetVersion = some false) := by
  have hc : Version.Compare currentVersion targetVersion
      = some (Version.compareParts pc pt) := by
    simp [Version.Compare, h1, h2]
  cases hr : Version.compareParts pc pt <;>
    simp [Version.NeedsUpgrade, hc, hr]

/-- C7 witness: `v1.2.3` vs `v1.3.0`. -/
theorem c7_witness :
    (Version.NeedsUpgrade (str "v1.2.3") (str "v1.3.0") = some true
      ↔ Version.Compare (str "v1.2.3") (str "v1.3.0") = some .Older)
    ∧ (Version.Compare (str "v1.2.3") (str "v1.3.0") = some .Equal →
        Version.NeedsUpgrade (str "v1.2.3") (str "v1.3.0") = some false)
    ∧ (Version.Compare (str "v1.2.3") (str "v1.3.0") = some .Newer →
        Version.NeedsUpgrade (str "v1.2.3") (str "v1.3.0") = some false) :=
  c7_needsUpgrade_iff_older (str "v1.2.3") (str "v1.3.0") ⟨1, 2, 3⟩ ⟨1, 3, 0⟩ rfl rfl

/-- Helper: the component-wise comparison is antisymmetric. -/
theorem compareParts_antisymm (p q : Parts) :
    Version.compareParts p q = .Newer ↔ Version.compareParts q p = .Older := by
  unfold Version.compareParts
  split_ifs <;> (try simp) <;> omega

/-- C9: on version strings that both parse, `Compare` returns exactly one of
Older/Equal/Newer, and `Compare(a,b) == Newer` iff `Compare(b,a) == Older`. -/
theorem c9_compare_total_order (a b : List Char) (pa pb : Parts)
    (h1 : Version.parseVersion (trimV a) = some pa)
    (h2 : Version.parseVersion (trimV b) = some pb) :
    (Version.Compare a b = some .Older ∨ Version.Compare a b = some .Equal
      ∨ Version.Compare a b = some .Newer)
    ∧ ¬(Version.Compare a b = some .Older ∧ Version.Compare a b = some .Equal)
    ∧ ¬(Version.Compare a b = some .Older ∧ Version.Compare a b = some .Newer)
    ∧ ¬(Version.Compare a b = some .Equal ∧ Version.Compare a b = some .Newer)
    ∧ (Version.Compare a b = some .Newer ↔ Version.Compare b a = some .Older) := by
  have hab : Version.Compare a b = some (Version.compareParts pa pb) := by
    simp [Version.Compare, h1, h2]
  have hba : Version.Compare b a = some (Version.compareParts pb pa) := by
    simp [Version.Compare, h1, h2]
  refine ⟨?_, ?_, ?_, ?_, ?_⟩
  · cases hr : Version.compareParts pa pb <;> simp [hab, hr]
  · cases hr : Version.compareParts pa pb <;> simp [hab, hr]
  · cases hr : Version.compareParts pa pb <;> simp [hab, hr]
  · cases hr : Version.compareParts pa pb <;> simp [hab, hr]
  · rw [hab, hba]
    simp [compareParts_antisymm]

/-- C9 witness: `v1.2.3` vs `v1.3.0`. -/
theorem c9_witness :
    (Version.Compare (str "v1.2.3") (str "v1.3.0") = some .Older
      ∨ Version.Compare (str "v1.2.3") (str "v1.3.0") = some .Equal
      ∨ Version.Compare (str "v1.2.3") (str "v1.3.0") = some .Newer)
    ∧ ¬(Version.Compare (str "v1.2.3") (str "v1.3.0") = some .Older
        ∧ Version.Compare (str "v1.2.3") (str "v1.3.0") = some .Equal)
    ∧ ¬(Version.Compare (str "v1.2.3") (str "v1.3.0") = some .Older
        ∧ Version.Compare (str "v1.2.3") (str "v1.3.0") = some .Newer)
    ∧ ¬(Version.Compare (str "v1.2.3") (str "v1.3.0") = some .Equal
        ∧ Version.Compare (str "v1.2.3") (str "v1.3.0") = some .Newer)
    ∧ (Version.Compare (str "v1.2.3") (str "v1.3.0") = some .Newer
        ↔ Version.Compare (str "v1.3.0") (str "v1.2.3") = some .Older) :=
  c9_compare_total_order (str "v1.2.3") (str "v1.3.0") ⟨1, 2, 3⟩ ⟨1, 3, 0⟩ rfl rfl

/-- C8: `CheckOnly` never invokes the node or workload upgrader — its trace
holds no upgrader call for any environment — and, whenever the snapshot fetch
and the Talos cluster-version comparison succeed, its trace is exactly the
snapshot fetch followed by the release-gate validations of both layers. -/
theorem c8_checkOnly_frame (env : Upgrade.Env) (cfg : Upgrade.Config) :
    ((Upgrade.CheckOnly env cfg).2.all (fun e => !e.isUpgraderCall) = true)
    ∧ (∀ ci : Upgrade.ClusterInfo, env.clusterInfo = .ok ci →
        ∀ b : Bool, Version.NeedsUpgrade ci.talosVersion cfg.talos.version = some b →
        (Upgrade.CheckOnly env cfg).2
          = [.fetchClusterInfo, .gateCheck .talos, .gateCheck .kubernetes]) := by
  constructor
  · cases hci : env.clusterInfo with
    | error e => simp [Upgrade.CheckOnly, hci, Upgrade.Event.isUpgraderCall]
    | ok ci =>
      cases hn : Version.NeedsUpgrade ci.talosVersion cfg.talos.version with
      | none => simp [Upgrade.CheckOnly, hci, hn, Upgrade.Event.isUpgraderCall]
      | some b =>
        cases hgk : Upgrade.ValidateTargetVersion cfg.k8s.version env.k8sReleases with
        | error e => simp [Upgrade.CheckOnly, hci, hn, hgk, Upgrade.Event.isUpgraderCall]
        | ok u =>
          cases hn2 : Version.NeedsUpgrade ci.k8sVersion cfg.k8s.version with
          | none => simp [Upgrade.CheckOnly, hci, hn, hgk, hn2, Upgrade.Event.isUpgraderCall]
          | some b2 => simp [Upgrade.CheckOnly, hci, hn, hgk, hn2, Upgrade.Event.isUpgraderCall]
  · intro ci hci b hb
    cases hgk : Upgrade.ValidateTargetVersion cfg.k8s.version env.k8sReleases with
    | error e => simp [Upgrade.CheckOnly, hci, hb, hgk]
    | ok u =>
      cases hn2 : Version.NeedsUpgrade ci.k8sVersion cfg.k8s.version with
      | none => simp [Upgrade.CheckOnly, hci, hb, hgk, hn2]
      | some b2 => simp [Upgrade.CheckOnly, hci, hb, hgk, hn2]

/-- C8 witness: the concrete split-gate environment. -/
theorem c8_witness :
    ((Upgrade.CheckOnly Upgrade.envGateSplit Upgrade.cfg0).2.all
        (fun e => !e.isUpgraderCall) = true)
    ∧ (Upgrade.CheckOnly Upgrade.envGateSplit Upgrade.cfg0).2
        = [.fetchClusterInfo, .gateCheck .talos, .gateCheck .kubernetes] :=
  ⟨(c8_checkOnly_frame Upgrade.envGateSplit Upgrade.cfg0).1,
   (c8_checkOnly_frame Upgrade.envGateSplit Upgrade.cfg0).2 Upgrade.oneNodeCluster rfl
     true rfl⟩

/-- `splitChar` never returns the empty list of pieces. -/
theorem splitChar_ne_nil (sep : Char) (s : List Char) : splitChar sep s ≠ [] := by
  induction s with
  | nil => simp [splitChar]
  | cons c rest ih =>
    simp only [splitChar]
    split_ifs
    · simp
    · cases h : splitChar sep rest <;> simp

/-- Inversion for `splitChar`: the first piece is separator-free, and either
it is the only piece (no separator in `s`) or `s` continues with the
separator followed by the split of the remainder. -/
theorem splitChar_cons_inv (sep : Char) (s p : List Char) (ps : List (List Char))
    (h : splitChar sep s = p :: ps) :
    sep ∉ p ∧ ((ps = [] ∧ s = p) ∨
      (∃ rest, s = p ++ sep :: rest ∧ splitChar sep rest = ps)) := by
  induction s generalizing p ps with
  | nil =>
    simp [splitChar] at h
    obtain ⟨h1, h2⟩ := h
    subst h1; subst h2
    simp
  | cons c rest ih =>
    simp only [splitChar] at h
    split_ifs at h with hc
    · injection h with h1 h2
      subst hc; subst h1
      refine ⟨by simp, Or.inr ⟨rest, by simp, h2⟩⟩
    · cases hsr : splitChar sep rest with
      | nil => exact absurd hsr (splitChar_ne_nil sep rest)
      | cons q qs =>
        rw [hsr] at h
        injection h with h1 h2
        subst h1
        obtain ⟨hq, hrest⟩ := ih q qs hsr
        refine ⟨by simp [hq]; exact fun he => hc he.symm, ?_⟩
        rcases hrest with ⟨hnil, heq⟩ | ⟨r, hr, hsp⟩
        · subst heq
          exact Or.inl ⟨h2.symm.trans hnil, rfl⟩
        · subst hr
          exact Or.inr ⟨r, by simp, h2 ▸ hsp⟩

/-- The first piece of a split of `c :: rest`. -/
theorem splitChar_headD_cons (sep c : Char) (rest : List Char) :
    (splitChar sep (c :: rest)).headD [] =
      if c = sep then [] else c :: (splitChar sep rest).headD [] := by
  simp only [splitChar]
  split_ifs
  · rfl
  · cases h : splitChar sep rest with
    | nil => exact absurd h (splitChar_ne_nil sep rest)
    | cons p ps => simp

/-- Walking a separator-free block: the first piece of the split of
`xs ++ ys` is `xs` followed by the first piece of the split of `ys`. -/
theorem splitChar_headD_append_not_mem (sep : Char) (xs ys : List Char) (h : sep ∉ xs) :
    (splitChar sep (xs ++ ys)).headD [] = xs ++ (splitChar sep ys).headD [] := by
  induction xs with
  | nil => simp
  | cons c rest ih =>
    have hc : ¬c = sep := fun he => h (by simp [he])
    have hrest : sep ∉ rest := fun hm => h (by simp [hm])
    simp only [List.cons_append, splitChar_headD_cons, if_neg hc, ih hrest]

/-- When the separator occurs in `xs`, the first piece of the split of
`xs ++ ys` is already determined by `xs`. -/
theorem splitChar_headD_append_mem (sep : Char) (xs ys : List Char) (h : sep ∈ xs) :
    (splitChar sep (xs ++ ys)).headD [] = (splitChar sep xs).headD [] := by
  induction xs with
  | nil => cases h
  | cons c rest ih =>
    by_cases hc : c = sep
    · simp only [List.cons_append, splitChar_headD_cons, if_pos hc]
    · have hm : sep ∈ rest := by
        rcases List.mem_cons.1 h with he | hm
        · exact absurd he.symm hc
        · exact hm
      simp only [List.cons_append, splitChar_headD_cons, if_neg hc, ih hm]

/-- The first piece of a split never contains the separator. -/
theorem splitChar_headD_not_mem (sep : Char) (s : List Char) :
    sep ∉ (splitChar sep s).headD [] := by
  induction s with
  | nil => simp [splitChar]
  | cons c rest ih =>
    by_cases hc : c = sep
    · simp only [splitChar_headD_cons, if_pos hc]
      simp
    · simp only [splitChar_headD_cons, if_neg hc]
      simp only [List.mem_cons, not_or]
      exact ⟨fun he => hc he.symm, ih⟩

/-- A separator-free string is its own first piece. -/
theorem splitChar_headD_eq_self (sep : Char) (s : List Char) (h : sep ∉ s) :
    (splitChar sep s).headD [] = s := by
  have := splitChar_headD_append_not_mem sep s [] h
  simpa [splitChar] using this

/-- `preReleaseTrim` is exactly the piece before the first `-`. -/
theorem preReleaseTrim_eq_headD (p : List Char) :
    Version.preReleaseTrim p = (splitChar '-' p).headD [] := by
  unfold Version.preReleaseTrim
  split_ifs with h
  · rfl
  · exact (splitChar_headD_eq_self '-' p (by simpa using h)).symm

/-- A block of `p`-satisfying characters followed by a non-`p` head is exactly
what `takeWhile` takes. -/
theorem takeWhile_append_eq (p : Char → Bool) (xs ys : List Char)
    (h1 : xs.all p = true) (h2 : ∀ d, ys.head? = some d → p d = false) :
    (xs ++ ys).takeWhile p = xs := by
  induction xs with
  | nil =>
    cases ys with
    | nil => rfl
    | cons d l => simp [List.takeWhile_cons, h2 d rfl]
  | cons c rest ih =>
    simp only [List.all_cons, Bool.and_eq_true] at h1
    simp [List.takeWhile_cons, h1.1, ih h1.2]

/-- Companion of `takeWhile_append_eq` for `dropWhile`. -/
theorem dropWhile_append_eq (p : Char → Bool) (xs ys : List Char)
    (h1 : xs.all p = true) (h2 : ∀ d, ys.head? = some d → p d = false) :
    (xs ++ ys).dropWhile p = ys := by
  induction xs with
  | nil =>
    cases ys with
    | nil => rfl
    | cons d l => simp [List.dropWhile_cons, h2 d rfl]
  | cons c rest ih =>
    simp only [List.all_cons, Bool.and_eq_true] at h1
    simp [List.dropWhile_cons, h1.1, ih h1.2]

/-- A decimal digit is neither a newline nor a scanner space, so the `%d`
verb's space skipping leaves it in place. -/
theorem skipSpaces_digit (c : Char) (l : List Char) (h : c.isDigit = true) :
    K8s.skipSpaces (c :: l) = some (c :: l) := by
  have h1 : ¬c = '\n' := by rintro rfl; exact absurd h (by decide)
  have h2 : K8s.isScanSpace c = false := by
    unfold K8s.isScanSpace
    rw [decide_eq_false_iff_not]
    rintro (rfl | rfl | rfl | rfl | rfl | rfl | rfl) <;> exact absurd h (by decide)
  unfold K8s.skipSpaces
  simp [h1, h2]

/-- If `atoi` accepts `q`, `q` holds no `-`, and `t` does not begin with a
digit, then the `%d` verb applied to `q ++ t` reads exactly the `atoi` value
and leaves `t`. -/
theorem scanDec_of_atoi (q t : List Char) (v : Int)
    (hq : atoi q = some v) (hm : '-' ∉ q)
    (ht : ∀ d, t.head? = some d → d.isDigit = false) :
    K8s.scanDec (q ++ t) = some (v, t) := by
  cases q with
  | nil => cases hq
  | cons c rest =>
    have hcm : ¬c = '-' := fun he => hm (by simp [he])
    by_cases hcp : c = '+'
    · subst hcp
      simp only [atoi] at hq
      by_cases hre : rest = []
      · simp [hre] at hq
      by_cases hdig : rest.all Char.isDigit = true
      · simp [hre, hdig] at hq
        obtain ⟨hok, hv⟩ := hq
        obtain ⟨d, rest', rfl⟩ := List.exists_cons_of_ne_nil hre
        simp only [List.all_cons, Bool.and_eq_true] at hdig
        have htake : (rest' ++ t).takeWhile Char.isDigit = rest' :=
          takeWhile_append_eq _ _ _ hdig.2 ht
        have hdrop : (rest' ++ t).dropWhile Char.isDigit = t :=
          dropWhile_append_eq _ _ _ hdig.2 ht
        simp [K8s.scanDec, K8s.skipSpaces, K8s.isScanSpace, htake, hdrop, hok, hv,
          hdig.1, List.takeWhile_cons, List.dropWhile_cons]
        exact hv ▸ hok
      · simp [if_neg hre, hdig] at hq
    · simp only [atoi] at hq
      simp [hcp, hcm] at hq
      obtain ⟨hall, hok, hv⟩ := hq
      have hdig : rest.all Char.isDigit = true := by
        rw [List.all_eq_true]
        exact hall.2
      have hcdig : c.isDigit = true := hall.1
      have htake : (rest ++ t).takeWhile Char.isDigit = rest :=
        takeWhile_append_eq _ _ _ hdig ht
      have hdrop : (rest ++ t).dropWhile Char.isDigit = t :=
        dropWhile_append_eq _ _ _ hdig ht
      have hsk := skipSpaces_digit c (rest ++ t) hcdig
      simp [K8s.scanDec, hsk, htake, hdrop, hok, hv, hcdig, hcp, hcm,
        List.takeWhile_cons, List.dropWhile_cons]
      exact hv ▸ hok

/-- The `%d` verb on a complete `atoi`-accepted numeral consumes everything. -/
theorem scanDec_of_atoi_nil (q : List Char) (v : Int)
    (hq : atoi q = some v) (hm : '-' ∉ q) :
    K8s.scanDec q = some (v, []) := by
  have := scanDec_of_atoi q [] v hq hm (fun d hd => by cases hd)
  simpa using this

/-- A literal dot heading the remaining input is not a digit. -/
theorem head_dot_not_digit (l : List Char) :
    ∀ d, ('.' :: l).head? = some d → d.isDigit = false := by
  intro d hd
  simp at hd
  subst hd
  decide

/-- Agreement of the two parsers on their common domain: whenever
`version.parseVersion` and `k8s.parseVersion` both accept the same string,
they produce the same (major, minor, patch) triple.  (The domains differ:
the dot-split parser rejects pre-release suffixes containing a dot, the
Sscanf parser tolerates trailing garbage after the patch number.) -/
theorem parse_agree (s : List Char) (a b : Parts)
    (hv : Version.parseVersion s = some a) (hk : K8s.parseVersion s = some b) :
    a = b := by
  unfold Version.parseVersion at hv
  rcases hsp : splitChar '.' s with _ | ⟨p0, _ | ⟨p1, _ | ⟨p2, _ | ⟨p3, ps⟩⟩⟩⟩ <;>
    rw [hsp] at hv
  · simp at hv
  · simp at hv
  · simp at hv
  · obtain ⟨hn0, hrest0⟩ := splitChar_cons_inv '.' s p0 [p1, p2] hsp
    rcases hrest0 with ⟨hnil, _⟩ | ⟨r1, hs1, hsp1⟩
    · cases hnil
    obtain ⟨hn1, hrest1⟩ := splitChar_cons_inv '.' r1 p1 [p2] hsp1
    rcases hrest1 with ⟨hnil, _⟩ | ⟨r2, hs2, hsp2⟩
    · cases hnil
    obtain ⟨hn2, hrest2⟩ := splitChar_cons_inv '.' r2 p2 [] hsp2
    rcases hrest2 with ⟨_, hr2⟩ | ⟨r3, _, hsp3⟩
    · rw [hr2] at hs2
      subst hs2
      subst hs1
      simp only [] at hv
      cases h0 : atoi (Version.preReleaseTrim p0) with
      | none => rw [h0] at hv; simp at hv
      | some a0 =>
      cases h1 : atoi (Version.preReleaseTrim p1) with
      | none => rw [h0, h1] at hv; simp at hv
      | some a1 =>
      cases h2 : atoi (Version.preReleaseTrim p2) with
      | none => rw [h0, h1, h2] at hv; simp at hv
      | some a2 =>
      rw [h0, h1, h2] at hv
      simp only [Option.some.injEq] at hv
      subst hv
      unfold K8s.parseVersion at hk
      by_cases hA : '-' ∈ p0
      · -- the k8s main version ends inside p0: Sscanf cannot find the first dot
        have hmain : (splitChar '-' (p0 ++ '.' :: (p1 ++ '.' :: p2))).headD []
            = Version.preReleaseTrim p0 := by
          rw [splitChar_headD_append_mem '-' p0 _ hA, ← preReleaseTrim_eq_headD]
        have hscan : K8s.scanDec (Version.preReleaseTrim p0) = some (a0, []) :=
          scanDec_of_atoi_nil _ _ h0
            (preReleaseTrim_eq_headD p0 ▸ splitChar_headD_not_mem '-' p0)
        rw [hmain] at hk
        simp [K8s.sscanf3, hscan, K8s.expectDot] at hk
      · have hpre0 : Version.preReleaseTrim p0 = p0 :=
          (preReleaseTrim_eq_headD p0).trans (splitChar_headD_eq_self '-' p0 hA)
        by_cases hB : '-' ∈ p1
        · -- the k8s main version ends inside p1: no second dot for Sscanf
          have hmain : (splitChar '-' (p0 ++ '.' :: (p1 ++ '.' :: p2))).headD []
              = p0 ++ '.' :: Version.preReleaseTrim p1 := by
            rw [splitChar_headD_append_not_mem '-' p0 _ hA, splitChar_headD_cons,
              if_neg (by decide), splitChar_headD_append_mem '-' p1 _ hB,
              ← preReleaseTrim_eq_headD]
          have hscan0 : K8s.scanDec (p0 ++ '.' :: Version.preReleaseTrim p1)
              = some (a0, '.' :: Version.preReleaseTrim p1) :=
            scanDec_of_atoi p0 _ a0 (hpre0 ▸ h0) hA (head_dot_not_digit _)
          have hscan1 : K8s.scanDec (Version.preReleaseTrim p1) = some (a1, []) :=
            scanDec_of_atoi_nil _ _ h1
              (preReleaseTrim_eq_headD p1 ▸ splitChar_headD_not_mem '-' p1)
          rw [hmain] at hk
          simp [K8s.sscanf3, hscan0, hscan1, K8s.expectDot] at hk
        · -- both p0 and p1 are dash-free: the two parsers read the same numbers
          have hpre1 : Version.preReleaseTrim p1 = p1 :=
            (preReleaseTrim_eq_headD p1).trans (splitChar_headD_eq_self '-' p1 hB)
          have hmain : (splitChar '-' (p0 ++ '.' :: (p1 ++ '.' :: p2))).headD []
              = p0 ++ '.' :: (p1 ++ '.' :: Version.preReleaseTrim p2) := by
            rw [splitChar_headD_append_not_mem '-' p0 _ hA, splitChar_headD_cons,
              if_neg (by decide), splitChar_headD_append_not_mem '-' p1 _ hB,
              splitChar_headD_cons, if_neg (by decide), ← preReleaseTrim_eq_headD]
          have hscan0 : K8s.scanDec (p0 ++ '.' :: (p1 ++ '.' :: Version.preReleaseTrim p2))
              = some (a0, '.' :: (p1 ++ '.' :: Version.preReleaseTrim p2)) :=
            scanDec_of_atoi p0 _ a0 (hpre0 ▸ h0) hA (head_dot_not_digit _)
          have hscan1 : K8s.scanDec (p1 ++ '.' :: Version.preReleaseTrim p2)
              = some (a1, '.' :: Version.preReleaseTrim p2) :=
            scanDec_of_atoi p1 _ a1 (hpre1 ▸ h1) hB (head_dot_not_digit _)
          have hscan2 : K8s.scanDec (Version.preReleaseTrim p2) = some (a2, []) :=
            scanDec_of_atoi_nil _ _ h2
              (preReleaseTrim_eq_headD p2 ▸ splitChar_headD_not_mem '-' p2)
          rw [hmain] at hk
          simp [K8s.sscanf3, hscan0, hscan1, hscan2, K8s.expectDot] at hk
          exact hk
    · exact absurd hsp3 (splitChar_ne_nil '.' r3)
  · simp at hv

/-- The two comparison chains produce corresponding verdicts on equal parsed
triples. -/
theorem compareParts_correspond (p q : Parts) :
    (Version.compareParts p q = .Older ↔ K8s.compareParts p q = -1)
    ∧ (Version.compareParts p q = .Equal ↔ K8s.compareParts p q = 0)
    ∧ (Version.compareParts p q = .Newer ↔ K8s.compareParts p q = 1) := by
  unfold Version.compareParts K8s.compareParts
  refine ⟨?_, ?_, ?_⟩ <;> (split_ifs <;> (try simp) <;> omega)

/-- C10: the two comparators agree on their common domain — whenever
`version.Compare` and `k8s.CompareVersions` both succeed on the pair (a, b),
the former returns Older / Equal / Newer exactly when the latter returns
-1 / 0 / 1. -/
theorem c10_comparators_agree (a b : List Char) (r : Version.ComparisonResult) (n : Int)
    (h1 : Version.Compare a b = some r) (h2 : K8s.CompareVersions a b = some n) :
    (r = .Older ↔ n = -1) ∧ (r = .Equal ↔ n = 0) ∧ (r = .Newer ↔ n = 1) := by
  unfold Version.Compare at h1
  unfold K8s.CompareVersions at h2
  cases hva : Version.parseVersion (trimV a) with
  | none => rw [hva] at h1; simp at h1
  | some pa =>
  cases hvb : Version.parseVersion (trimV b) with
  | none => rw [hva, hvb] at h1; simp at h1
  | some pb =>
  cases hka : K8s.parseVersion (trimV a) with
  | none => rw [hka] at h2; simp at h2
  | some qa =>
  cases hkb : K8s.parseVersion (trimV b) with
  | none => rw [hka, hkb] at h2; simp at h2
  | some qb =>
  have ea : pa = qa := parse_agree (trimV a) pa qa hva hka
  have eb : pb = qb := parse_agree (trimV b) pb qb hvb hkb
  rw [hva, hvb] at h1
  rw [hka, hkb] at h2
  simp only [Option.some.injEq] at h1 h2
  subst h1; subst h2; subst ea; subst eb
  exact compareParts_correspond pa pb

/-- C10 witness: `v1.2.3` vs `v1.3.0` in both comparators. -/
theorem c10_witness :
    ((Version.ComparisonResult.Older = .Older ↔ (-1 : Int) = -1)
      ∧ (Version.ComparisonResult.Older = .Equal ↔ (-1 : Int) = 0)
      ∧ (Version.ComparisonResult.Older = .Newer ↔ (-1 : Int) = 1))
    ∧ Version.Compare (str "v1.2.3") (str "v1.3.0") = some .Older
    ∧ K8s.CompareVersions (str "v1.2.3") (str "v1.3.0") = some (-1) :=
  ⟨c10_comparators_agree (str "v1.2.3") (str "v1.3.0") .Older (-1) rfl rfl, rfl, rfl⟩
